import Mathlib

/-!
Verification of the openvpn-auth-hook repository: an interposition library
that hooks `fopen`/`fgets`/`fclose`, tracks streams opened on the configured
auth-user-pass file, and substitutes the second line read from such a stream
with a password that is stored encrypted in the binary and decrypted at run
time with a key derived from the machine identity.

The development shallowly embeds the Rust sources:
  - `src/src/lib.rs`        (the three hooks and `replace_line`)
  - `src/src/state.rs`      (the stream registry)
  - `src/src/params.rs`     (`password_line` and the embedded constants)
  - `src/encryption/src/lib.rs` (`encrypt` / `decrypt` / `machine_id` /
    `generate_key`)
Buffers are lists of byte values, C streams are numeric identities, the
genuine libc calls are oracles whose results are inputs to the hook
functions, and the filesystem used for the machine identity is a partial map
from path to file content.  The external cryptographic crates (`aes_gcm`,
`hkdf`/`sha2`) are not part of the repository; they are modelled from the
spec as idealized primitives, as documented on their definitions.
-/

/-- Numeric value of one hex digit, as accepted by the `hex` crate's decoder
(`0-9`, `a-f`, `A-F`). -/
def hexVal (c : Char) : Option Nat :=
  let n := c.toNat
  if 48 ≤ n ∧ n ≤ 57 then some (n - 48)
  else if 97 ≤ n ∧ n ≤ 102 then some (n - 87)
  else if 65 ≤ n ∧ n ≤ 70 then some (n - 55)
  else none

/-- Decode errors of `hex::decode`: odd input length, or an invalid character
together with its index. -/
inductive HexError where
  | oddLength : HexError
  | invalidChar (c : Char) (index : Nat) : HexError
deriving DecidableEq

/-- Pairwise decoding loop of `hex::decode`, tracking the character index for
error reporting. -/
def hexDecodeAux : List Char → Nat → Except HexError (List Nat)
  | [], _ => .ok []
  | [_], _ => .error .oddLength
  | c1 :: c2 :: rest, i =>
    match hexVal c1 with
    | none => .error (.invalidChar c1 i)
    | some hi =>
      match hexVal c2 with
      | none => .error (.invalidChar c2 (i + 1))
      | some lo =>
        match hexDecodeAux rest (i + 2) with
        | .error e => .error e
        | .ok bs => .ok ((hi * 16 + lo) :: bs)

/-- `hex::decode`: rejects odd-length strings, otherwise decodes hex pairs to
bytes. -/
def hexDecode (s : String) : Except HexError (List Nat) :=
  if s.data.length % 2 ≠ 0 then .error .oddLength
  else hexDecodeAux s.data 0

/-- Lower-case hex digit, as produced by `hex::encode`. -/
def hexDigit (n : Nat) : Char :=
  if n < 10 then Char.ofNat (48 + n) else Char.ofNat (87 + n)

/-- `hex::encode`: two lower-case hex digits per byte (used by the build-time
provisioning step in `build.rs`). -/
def hexEncode (bs : List Nat) : String :=
  ⟨bs.flatMap (fun b => [hexDigit (b / 16 % 16), hexDigit (b % 16)])⟩

/-- UTF-8 encoding of one Unicode scalar value (`str::as_bytes` semantics). -/
def charUtf8 (n : Nat) : List Nat :=
  if n < 0x80 then [n]
  else if n < 0x800 then [0xC0 + n / 64, 0x80 + n % 64]
  else if n < 0x10000 then
    [0xE0 + n / 4096, 0x80 + n / 64 % 64, 0x80 + n % 64]
  else
    [0xF0 + n / 262144, 0x80 + n / 4096 % 64, 0x80 + n / 64 % 64, 0x80 + n % 64]

/-- Byte representation of a Rust `String` (its UTF-8 encoding). -/
def strBytes (s : String) : List Nat :=
  s.data.flatMap (fun c => charUtf8 c.toNat)

/-- A UTF-8 continuation byte (`0x80..=0xBF`). -/
def isCont (b : Nat) : Bool :=
  0x80 ≤ b && b ≤ 0xBF

/-- UTF-8 validity of a byte sequence, with the exact acceptance set of Rust's
`String::from_utf8` (rejecting overlong forms, surrogates and values above
`0x10FFFF`). -/
def validUtf8 : List Nat → Bool
  | [] => true
  | b :: rest =>
    if b ≤ 0x7F then validUtf8 rest
    else if b < 0xC2 then false
    else if b ≤ 0xDF then
      match rest with
      | b1 :: r => isCont b1 && validUtf8 r
      | [] => false
    else if b ≤ 0xEF then
      match rest with
      | b1 :: b2 :: r =>
        (if b = 0xE0 then decide (0xA0 ≤ b1 ∧ b1 ≤ 0xBF)
         else if b = 0xED then decide (0x80 ≤ b1 ∧ b1 ≤ 0x9F)
         else isCont b1) && isCont b2 && validUtf8 r
      | _ => false
    else if b ≤ 0xF4 then
      match rest with
      | b1 :: b2 :: b3 :: r =>
        (if b = 0xF0 then decide (0x90 ≤ b1 ∧ b1 ≤ 0xBF)
         else if b = 0xF4 then decide (0x80 ≤ b1 ∧ b1 ≤ 0x8F)
         else isCont b1) && isCont b2 && isCont b3 && validUtf8 r
      | _ => false
    else false

/-- `encryption::Error` (`src/encryption/src/lib.rs`): an IO error obtaining
the machine identifier, or the deliberately opaque cipher error. -/
inductive EncError where
  | ioError : EncError
  | cipher : EncError
deriving DecidableEq

/-- `MACHINE_ID_PATHS`: candidate locations of the machine-id file, probed in
order. -/
def MACHINE_ID_PATHS : List String :=
  ["/etc/machine-id", "/var/lib/dbus/machine-id"]

/-- The probing loop of `machine_id`: return the content of the first path
that exists in the filesystem `fs`. -/
def machine_id_from (fs : String → Option String) :
    List String → Except EncError String
  | [] => .error .ioError
  | p :: ps =>
    match fs p with
    | some content => .ok content
    | none => machine_id_from fs ps

/-- `machine_id`: read the machine identity from the first existing candidate
file; an IO error if none exists. -/
def machine_id (fs : String → Option String) : Except EncError String :=
  machine_id_from fs MACHINE_ID_PATHS

/-- `KEY_SIZE`: the AES-256-GCM key size in bytes. -/
def KEY_SIZE : Nat := 32

/-- Modelled from the spec: `generate_key` wraps the external HKDF-SHA256
implementation (`hkdf`/`sha2` crates, not part of this repository), deriving
a deterministic 32-byte key from the application identifier (input key
material) and the machine identifier (info).  The hash itself is modelled by
a concrete deterministic mixing function; what the development relies on is
exactly what the spec states: the derivation is a total deterministic
function producing a fixed 32-byte output. -/
def generate_key (app_id machine_idBytes : List Nat) : List Nat :=
  (List.range KEY_SIZE).map
    (fun i => (app_id.sum * 31 + machine_idBytes.sum * 17 + i * 7 + 1) % 256)

/-- Authentication tag prefix of the idealized AEAD container (length-tagged
key and nonce). -/
def aeadTag (key nonce : List Nat) : List Nat :=
  (key.length :: key) ++ (nonce.length :: nonce)

/-- Modelled from the spec: the external AES-256-GCM AEAD cipher (`aes_gcm`
crate, not part of this repository), idealized as an authenticated container:
encryption seals the plaintext under the exact key and nonce, and decryption
succeeds exactly when the same key and nonce are presented, otherwise fails.
This captures the spec's AEAD contract (round trip and tamper/key-mismatch
detection); confidentiality is not modelled. -/
def aead_encrypt (key nonce plaintext : List Nat) : List Nat :=
  aeadTag key nonce ++ plaintext

/-- Modelled from the spec: idealized AEAD decryption, the inverse of
`aead_encrypt`; see its documentation. -/
def aead_decrypt (key nonce ciphertext : List Nat) : Option (List Nat) :=
  let tag := aeadTag key nonce
  if ciphertext.take tag.length = tag then some (ciphertext.drop tag.length)
  else none

/-- `encrypt`: derive the key from the application identifier and the machine
identity read from `fs`, and seal the plaintext under the given nonce (the
nonce is random in the source; here it is an explicit input standing for that
randomness).  Returns the nonce and the ciphertext. -/
def encrypt (fs : String → Option String) (app_id : List Nat)
    (nonce plaintext : List Nat) : Except EncError (List Nat × List Nat) :=
  match machine_id fs with
  | .error e => .error e
  | .ok mid =>
    .ok (nonce, aead_encrypt (generate_key app_id (strBytes mid)) nonce plaintext)

/-- `decrypt`: re-derive the key from the application identifier and the
machine identity read fresh from `fs`, and open the ciphertext; any cipher
failure is collapsed to the opaque `EncError.cipher`. -/
def decrypt (fs : String → Option String) (app_id : List Nat)
    (nonce ciphertext : List Nat) : Except EncError (List Nat) :=
  match machine_id fs with
  | .error e => .error e
  | .ok mid =>
    match aead_decrypt (generate_key app_id (strBytes mid)) nonce ciphertext with
    | some plaintext => .ok plaintext
    | none => .error .cipher

/-- The error type of `params::password_line`.  In the source the function
returns `Box<dyn Error>`, and each `?` site boxes a distinct concrete error
type; the variants record which site produced the error, mirroring those
distinct boxed values (`hex::FromHexError`, the nonce-length message string,
`encryption::Error`, `FromUtf8Error`, `NulError`). -/
inductive PasswordError where
  | hex (e : HexError) : PasswordError
  | nonceLen : PasswordError
  | enc (e : EncError) : PasswordError
  | utf8 : PasswordError
  | nul : PasswordError
deriving DecidableEq

/-- The compile-time parameters embedded in the binary: the hex-encoded nonce
(`BUILD_ARG_NONCE_HEX`), the hex-encoded ciphertext
(`BUILD_ARG_CIPHERTEXT_HEX`), and the decoded application identifier
(`BUILD_ARG_APP_ID`; its hex decoding and string obfuscation are out of
scope). -/
structure Env where
  nonceHex : String
  ciphertextHex : String
  app_id : List Nat

/-- `params::password_line`: decode the embedded nonce and ciphertext, check
the nonce length, decrypt, require the plaintext to be valid UTF-8, append a
newline, and build a NUL-terminated C string (which requires the bytes to be
free of interior NUL).  Returns the C string's bytes including the
terminator. -/
def password_line (env : Env) (fs : String → Option String) :
    Except PasswordError (List Nat) :=
  match hexDecode env.nonceHex with
  | .error e => .error (.hex e)
  | .ok nonce =>
    if nonce.length ≠ 12 then .error .nonceLen
    else
      match hexDecode env.ciphertextHex with
      | .error e => .error (.hex e)
      | .ok ciphertext =>
        match decrypt fs env.app_id nonce ciphertext with
        | .error e => .error (.enc e)
        | .ok password =>
          if validUtf8 password = false then .error .utf8
          else if (password ++ [10]).contains 0 then .error .nul
          else .ok (password ++ [10, 0])

/-- Largest `usize` value (64-bit target), the saturation bound of
`usize::saturating_add`. -/
def USIZE_MAX : Nat := 2 ^ 64 - 1

/-- The stream registry: open-stream identity (the numeric value of the
`FILE` pointer) to number of lines read. -/
def StateMap : Type := Nat → Option Nat

/-- Diagnostics written to stderr, identified by site. -/
inductive Log where
  | tooLong (lineLen available : Nat) : Log
  | recoveryError (e : PasswordError) : Log
  | duplicateStream (stream : Nat) : Log
deriving DecidableEq

namespace State

/-- `State::add`: insert zero-initialized state for the stream, overwriting
any existing entry; a duplicate is reported with a diagnostic. -/
def add (stream : Nat) (m : StateMap) : StateMap × List Log :=
  (fun s => if s = stream then some 0 else m s,
   if (m stream).isSome then [.duplicateStream stream] else [])

/-- `StreamState::inc` applied through `State::inc_lines`: if the stream is
tracked, saturating-increment its line count and return the new count;
otherwise return nothing and leave the registry unchanged. -/
def inc_lines (stream : Nat) (m : StateMap) : Option Nat × StateMap :=
  match m stream with
  | none => (none, m)
  | some lines =>
    let lines2 := Nat.min (lines + 1) USIZE_MAX
    (some lines2, fun s => if s = stream then some lines2 else m s)

/-- `State::remove`: drop the stream from the registry (no-op if absent). -/
def remove (stream : Nat) (m : StateMap) : StateMap :=
  fun s => if s = stream then none else m s

end State

/-- `PASSWORD_LINE_NUMBER`: the credential is the second line of the
auth-user-pass file. -/
def PASSWORD_LINE_NUMBER : Nat := 2

/-- `i32 -> usize` conversion `n.try_into().unwrap_or(0)` in `replace_line`:
negative capacities collapse to zero available space. -/
def available_space (n : Int) : Nat :=
  if 0 ≤ n then n.toNat else 0

/-- `replace_line` (nested in the `fgets` hook): copy the NUL-terminated
replacement line into the buffer when it fits the available space, otherwise
leave the buffer untouched and emit a diagnostic reporting both lengths. -/
def replace_line (buf : List Nat) (n : Int) (new_line : List Nat) :
    List Nat × List Log :=
  if new_line.length ≤ available_space n then
    (new_line ++ buf.drop new_line.length, [])
  else
    (buf, [.tooLong new_line.length (available_space n)])

/-- Outcome of the `fopen` hook: the updated registry, the returned stream
(the genuine call's result, possibly null) and the diagnostics. -/
structure FopenResult where
  state : StateMap
  ret : Option Nat
  logs : List Log

/-- The `fopen` hook.  The genuine `fopen` result is the oracle input
`origResult` (`none` for a null stream).  `filenameDec` and `modeDec` are the
`CStr::to_str` results for the two arguments (`none` for invalid UTF-8), and
`cfg` is `AUTH_FILE_PATH` (`none` when the variable is missing or not
unicode).  On a non-null result with a present configuration, matching path
and read-only mode, the stream is registered. -/
def fopen (cfg filenameDec modeDec : Option String) (origResult : Option Nat)
    (m : StateMap) : FopenResult :=
  match origResult with
  | none => ⟨m, none, []⟩
  | some stream =>
    match cfg with
    | none => ⟨m, some stream, []⟩
    | some auth_file_path =>
      if filenameDec = some auth_file_path ∧ modeDec = some "r" then
        let r := State.add stream m
        ⟨r.1, some stream, r.2⟩
      else ⟨m, some stream, []⟩

/-- Outcome of the `fgets` hook: updated registry, buffer contents after the
hook, the returned value (`true` for the buffer pointer, `false` for null —
always the genuine call's result) and the diagnostics. -/
structure FgetsResult where
  state : StateMap
  buf : List Nat
  ret : Bool
  logs : List Log

/-- The `fgets` hook.  `buf` is the buffer content as the genuine `fgets`
left it and `origResult` its returned pointer (`false` = null).  On a
non-null result the stream's line count is bumped; when the new count equals
`PASSWORD_LINE_NUMBER` the password is recovered and substituted into the
buffer, a recovery error being logged and otherwise ignored. -/
def fgets (env : Env) (fs : String → Option String) (buf : List Nat) (n : Int)
    (stream : Nat) (origResult : Bool) (m : StateMap) : FgetsResult :=
  if origResult then
    let r := State.inc_lines stream m
    if r.1 = some PASSWORD_LINE_NUMBER then
      match password_line env fs with
      | .ok pl =>
        let rl := replace_line buf n pl
        ⟨r.2, rl.1, true, rl.2⟩
      | .error e => ⟨r.2, buf, true, [.recoveryError e]⟩
    else ⟨r.2, buf, true, []⟩
  else ⟨m, buf, false, []⟩

/-- The `fclose` hook: release the stream unconditionally, forward the
genuine call's status unmodified. -/
def fclose (stream : Nat) (origStatus : Int) (m : StateMap) : StateMap × Int :=
  (State.remove stream m, origStatus)

/-- Iterate the `fgets` hook over a sequence of reads on one stream; each
read supplies the genuine call's buffer content, declared capacity and
result.  Returns the final registry and the buffer contents after each
hooked read. -/
def runReads (env : Env) (fs : String → Option String) (stream : Nat) :
    List (List Nat × Int × Bool) → StateMap → StateMap × List (List Nat)
  | [], m => (m, [])
  | r :: rest, m =>
    let one := fgets env fs r.1 r.2.1 stream r.2.2 m
    let next := runReads env fs stream rest one.state
    (next.1, one.buf :: next.2)

/-! ## Helper lemmas -/

theorem generate_key_length (a b : List Nat) : (generate_key a b).length = 32 := by
  simp [generate_key, KEY_SIZE]

theorem aeadTag_length (k n : List Nat) :
    (aeadTag k n).length = k.length + n.length + 2 := by
  simp [aeadTag]
  omega

theorem aead_decrypt_encrypt (k n pt : List Nat) :
    aead_decrypt k n (aead_encrypt k n pt) = some pt := by
  unfold aead_decrypt aead_encrypt
  simp [List.take_left, List.drop_left]

theorem aead_decrypt_inv {k k2 n pt pt2 : List Nat}
    (hlen : k2.length = k.length)
    (h : aead_decrypt k2 n (aead_encrypt k n pt) = some pt2) :
    k2 = k ∧ pt2 = pt := by
  simp only [aead_decrypt, aead_encrypt] at h
  have hl : (aeadTag k2 n).length = (aeadTag k n).length := by
    rw [aeadTag_length, aeadTag_length, hlen]
  rw [hl, List.take_left, List.drop_left] at h
  split at h
  · rename_i htag
    simp only [aeadTag] at htag
    have h3 := List.append_inj htag (by simp [hlen])
    have hk : k2 = k := ((List.cons.injEq _ _ _ _).mp h3.1).2.symm
    exact ⟨hk, (Option.some.inj h).symm⟩
  · simp at h

theorem aead_decrypt_wrong_key (k k2 n pt : List Nat)
    (hlen : k2.length = k.length) (hne : k2 ≠ k) :
    aead_decrypt k2 n (aead_encrypt k n pt) = none := by
  cases h : aead_decrypt k2 n (aead_encrypt k n pt) with
  | none => rfl
  | some pt2 => exact absurd (aead_decrypt_inv hlen h).1 hne

theorem decrypt_ok_inv {fs : String → Option String}
    {app_id nonce ct pt2 : List Nat}
    (h : decrypt fs app_id nonce ct = .ok pt2) :
    ∃ mid, machine_id fs = .ok mid ∧
      aead_decrypt (generate_key app_id (strBytes mid)) nonce ct
        = some pt2 := by
  unfold decrypt at h
  split at h
  · simp at h
  · rename_i mid hmid
    split at h
    · rename_i p hd
      refine ⟨mid, hmid, ?_⟩
      rw [hd]
      exact congrArg some (Except.ok.inj h)
    · simp at h

theorem password_line_ok_shape {env : Env} {fs : String → Option String}
    {pl : List Nat} (h : password_line env fs = .ok pl) :
    ∃ pw, pl = pw ++ [10, 0] := by
  unfold password_line at h
  split at h
  · simp at h
  · split at h
    · simp at h
    · split at h
      · simp at h
      · split at h
        · simp at h
        · rename_i pw hpw
          split at h
          · simp at h
          · split at h
            · simp at h
            · exact ⟨pw, (Except.ok.inj h).symm⟩

theorem fgets_untracked (env : Env) (fs : String → Option String)
    (buf : List Nat) (n : Int) (stream : Nat) (res : Bool) (m : StateMap)
    (hm : m stream = none) :
    fgets env fs buf n stream res m = ⟨m, buf, res, []⟩ := by
  cases res with
  | false => rfl
  | true => simp [fgets, State.inc_lines, hm]

theorem runReads_untracked (env : Env) (fs : String → Option String)
    (stream : Nat) (reads : List (List Nat × Int × Bool)) (m : StateMap)
    (hm : m stream = none) :
    runReads env fs stream reads m = (m, reads.map (fun r => r.1)) := by
  induction reads with
  | nil => rfl
  | cons r rest ih =>
    unfold runReads
    rw [fgets_untracked env fs r.1 r.2.1 stream r.2.2 m hm]
    show ((runReads env fs stream rest m).1,
      r.1 :: (runReads env fs stream rest m).2) = _
    rw [ih]
    simp

/-! ## Concrete fixtures used by witnesses -/

/-- A filesystem whose machine identity is the string `A`. -/
def wFs : String → Option String :=
  fun p => if p = "/etc/machine-id" then some "A" else none

/-- A filesystem whose machine identity is the string `B`. -/
def wFs2 : String → Option String :=
  fun p => if p = "/etc/machine-id" then some "B" else none

/-- Key derived on the `A` machine with an empty application identifier. -/
def wKey : List Nat := generate_key [] (strBytes "A")

/-- An all-zero 12-byte nonce. -/
def wNonce : List Nat := List.replicate 12 0

/-- Ciphertext of the password `pw` sealed on the `A` machine. -/
def wCtPw : List Nat := aead_encrypt wKey wNonce (strBytes "pw")

/-- Embedded parameters matching `wCtPw`. -/
def wEnv : Env := ⟨hexEncode wNonce, hexEncode wCtPw, []⟩

/-- Ciphertext of the three-byte plaintext `[1, 2, 3]` sealed on the `A`
machine. -/
def wCt123 : List Nat := aead_encrypt wKey wNonce [1, 2, 3]

/-- Ciphertext of the invalid-UTF-8 plaintext `[255]` sealed on the `A`
machine. -/
def wCtBad : List Nat := aead_encrypt wKey wNonce [255]

/-- Embedded parameters matching `wCtBad`. -/
def wEnvBad : Env := ⟨hexEncode wNonce, hexEncode wCtBad, []⟩

/-- A registry tracking stream `3` with one line already read. -/
def wReg : StateMap := fun s => if s = 3 then some 1 else none

/-- The empty registry. -/
def wEmpty : StateMap := fun _ => none

/-! ## Claim theorems -/

/-- Claim C3: the line-substitution primitive copies the NUL-terminated
replacement (terminator included) into the buffer if and only if the
replacement's encoded length is at most the declared capacity; otherwise the
buffer is left entirely untouched (no partial copy) and a diagnostic
reporting the replacement length and the available space is emitted. -/
theorem replace_line_all_or_nothing (buf : List Nat) (n : Int)
    (new_line : List Nat) (hnz : new_line ≠ []) :
    ((new_line.length : Int) ≤ n →
      replace_line buf n new_line =
        (new_line ++ buf.drop new_line.length, [])) ∧
    (¬ (new_line.length : Int) ≤ n →
      replace_line buf n new_line =
        (buf, [Log.tooLong new_line.length (available_space n)])) := by
  have hlen : 0 < new_line.length := List.length_pos.mpr hnz
  constructor
  · intro hle
    have hfit : new_line.length ≤ available_space n := by
      unfold available_space
      split <;> omega
    simp [replace_line, hfit]
  · intro hgt
    have hfit : ¬ new_line.length ≤ available_space n := by
      unfold available_space
      split <;> omega
    simp [replace_line, hfit]

/-- Witness for C3 at a concrete buffer, capacity and replacement. -/
theorem replace_line_all_or_nothing_witness :
    replace_line [1, 2, 3, 4] 4 [65, 0] = ([65, 0, 3, 4], []) := by
  have h := (replace_line_all_or_nothing [1, 2, 3, 4] 4 [65, 0]
    (by decide)).1 (by decide)
  exact h

/-- Claim C10: for every declared capacity at most zero (negative values
included) the signed-to-unsigned conversion collapses the available space to
zero, so no bytes are copied into the buffer and the too-long diagnostic is
emitted. -/
theorem replace_line_nonpositive_capacity (buf : List Nat) (n : Int)
    (new_line : List Nat) (hn : n ≤ 0) (hnz : new_line ≠ []) :
    available_space n = 0 ∧
    replace_line buf n new_line = (buf, [Log.tooLong new_line.length 0]) := by
  have hz : available_space n = 0 := by
    unfold available_space
    split <;> omega
  have hlen : 0 < new_line.length := List.length_pos.mpr hnz
  have hfit : ¬ new_line.length ≤ available_space n := by
    rw [hz]
    omega
  refine ⟨hz, ?_⟩
  simp [replace_line, hfit, hz, hnz]

/-- Witness for C10 at a concrete negative capacity. -/
theorem replace_line_nonpositive_capacity_witness :
    available_space (-7) = 0 ∧
    replace_line [9] (-7) [65, 0] = ([9], [Log.tooLong 2 0]) :=
  replace_line_nonpositive_capacity [9] (-7) [65, 0] (by decide) (by decide)

/-- Claim C7: `State::inc_lines` returns the saturating increment of the
previous count exactly when the stream identity is tracked and nothing
otherwise, and a freshly registered identity starts at zero so its first read
records count one. -/
theorem inc_lines_tracked_iff (m : StateMap) (s : Nat) :
    ((State.inc_lines s m).1 = none ↔ m s = none) ∧
    (∀ lines, m s = some lines →
      (State.inc_lines s m).1 = some (Nat.min (lines + 1) USIZE_MAX)) ∧
    (State.inc_lines s (State.add s m).1).1 = some 1 := by
  refine ⟨?_, ?_, ?_⟩
  · cases hm : m s <;> simp [State.inc_lines, hm]
  · intro lines hm
    simp [State.inc_lines, hm]
  · have h0 : (State.add s m).1 s = some 0 := by simp [State.add]
    have h1 : Nat.min (0 + 1) USIZE_MAX = 1 := by decide
    simp [State.inc_lines, h0, h1]

/-- Witness for C7 at a concrete registry and identity. -/
theorem inc_lines_tracked_iff_witness :
    (State.inc_lines 0 (fun _ => some 5)).1 = some (Nat.min 6 USIZE_MAX) :=
  (inc_lines_tracked_iff (fun _ => some 5) 0).2.1 5 rfl

/-- Claim C6: each of the three hooks returns exactly the value produced by
the forwarded original operation, unmodified, whether or not the stream is
tracked and whether or not substitution happened or an error was logged. -/
theorem hooks_return_original_values (cfg filenameDec modeDec : Option String)
    (origResult : Option Nat) (m : StateMap) (env : Env)
    (fs : String → Option String) (buf : List Nat) (n : Int) (stream : Nat)
    (origRead : Bool) (m2 : StateMap) (stream2 : Nat) (origStatus : Int)
    (m3 : StateMap) :
    (fopen cfg filenameDec modeDec origResult m).ret = origResult ∧
    (fgets env fs buf n stream origRead m2).ret = origRead ∧
    (fclose stream2 origStatus m3).2 = origStatus := by
  refine ⟨?_, ?_, rfl⟩
  · cases origResult with
    | none => rfl
    | some s =>
      cases cfg with
      | none => rfl
      | some t =>
        by_cases h : filenameDec = some t ∧ modeDec = some "r" <;>
          simp [fopen, h]
  · cases origRead with
    | false => rfl
    | true =>
      by_cases hc : (State.inc_lines stream m2).1 = some PASSWORD_LINE_NUMBER
      · cases hpl : password_line env fs <;> simp [fgets, hc, hpl]
      · simp [fgets, hc]

/-- Claim C1: for a tracked stream, the `fgets` hook leaves the buffer
unchanged on every read except the one whose recorded line count equals 2;
on that read, when recovery succeeds and the encoded replacement fits the
declared capacity, the buffer is replaced with the recovered secret followed
by a newline and a NUL terminator; reads for lines 1 and 3 onward pass
through unchanged. -/
theorem fgets_substitutes_only_password_line (env : Env)
    (fs : String → Option String) (buf : List Nat) (n : Int) (stream : Nat)
    (m : StateMap) (lines : Nat) (hm : m stream = some lines) :
    (lines ≠ 1 → (fgets env fs buf n stream true m).buf = buf) ∧
    (lines = 1 → ∀ pl, password_line env fs = Except.ok pl →
      pl.length ≤ available_space n →
      (∃ pw, pl = pw ++ [10, 0]) ∧
      (fgets env fs buf n stream true m).buf = pl ++ buf.drop pl.length) := by
  have hmin : Nat.min (lines + 1) USIZE_MAX = PASSWORD_LINE_NUMBER ↔
      lines = 1 := by
    unfold PASSWORD_LINE_NUMBER USIZE_MAX
    simp only [Nat.min_def]
    split <;> omega
  constructor
  · intro hne
    simp [fgets, State.inc_lines, hm, hmin, hne]
  · intro h1 pl hpl hfit
    subst h1
    have h2 : Nat.min (1 + 1) USIZE_MAX = PASSWORD_LINE_NUMBER := hmin.mpr rfl
    refine ⟨password_line_ok_shape hpl, ?_⟩
    simp [fgets, State.inc_lines, hm, h2, hpl, replace_line, hfit]

/-- Witness for C1: a concrete tracked stream on its second read, with a
successfully recovered secret that fits the capacity. -/
theorem fgets_substitutes_only_password_line_witness :
    password_line wEnv wFs = Except.ok (strBytes "pw" ++ [10, 0]) ∧
    (fgets wEnv wFs (List.replicate 60 7) 60 3 true wReg).buf =
      (strBytes "pw" ++ [10, 0]) ++ (List.replicate 60 7).drop 4 := by
  have h := (fgets_substitutes_only_password_line wEnv wFs
    (List.replicate 60 7) 60 3 wReg 1 rfl).2 rfl (strBytes "pw" ++ [10, 0])
    rfl (by decide)
  exact ⟨rfl, h.2⟩

/-- Claim C2: a stream whose open does not match the configured target (path
mismatch, non read-only mode, or no configuration) is never registered, and
every read from it returns content byte-identical to what the genuine read
produced, for any number of lines. -/
theorem nontarget_stream_passthrough (cfg filenameDec modeDec : Option String)
    (env : Env) (fs : String → Option String) (stream : Nat) (m : StateMap)
    (reads : List (List Nat × Int × Bool))
    (hfresh : m stream = none)
    (hmiss : ∀ t, cfg = some t →
      ¬(filenameDec = some t ∧ modeDec = some "r")) :
    (fopen cfg filenameDec modeDec (some stream) m).state stream = none ∧
    (runReads env fs stream reads
        (fopen cfg filenameDec modeDec (some stream) m).state).2 =
      reads.map (fun r => r.1) := by
  have hstate : (fopen cfg filenameDec modeDec (some stream) m).state = m := by
    cases cfg with
    | none => rfl
    | some t =>
      have hni := hmiss t rfl
      simp [fopen, hni]
  rw [hstate]
  exact ⟨hfresh, by rw [runReads_untracked env fs stream reads m hfresh]⟩

/-- Witness for C2: a concrete open with a non-matching path followed by one
read. -/
theorem nontarget_stream_passthrough_witness :
    (fopen (some "/etc/auth") (some "/other") (some "r") (some 1)
      wEmpty).state 1 = none ∧
    (runReads wEnv wFs 1 [([1, 2], 10, true)]
        (fopen (some "/etc/auth") (some "/other") (some "r") (some 1)
          wEmpty).state).2 = [[1, 2]] :=
  nontarget_stream_passthrough (some "/etc/auth") (some "/other") (some "r")
    wEnv wFs 1 wEmpty [([1, 2], 10, true)] rfl
    (by
      intro t ht hcon
      rw [Option.some.injEq] at ht
      subst ht
      exact absurd hcon.1 (by decide))

/-- Claim C8: when secret recovery fails on the read whose count equals 2,
the buffer keeps exactly the content of the original read, a diagnostic is
logged, the hook still returns the original result, and the failure is not
fatal. -/
theorem fgets_recovery_failure_preserves_buffer (env : Env)
    (fs : String → Option String) (buf : List Nat) (n : Int) (stream : Nat)
    (m : StateMap) (e : PasswordError)
    (hm : m stream = some 1) (herr : password_line env fs = .error e) :
    (fgets env fs buf n stream true m).buf = buf ∧
    (fgets env fs buf n stream true m).ret = true ∧
    (fgets env fs buf n stream true m).logs = [Log.recoveryError e] ∧
    (fgets env fs buf n stream true m).state stream = some 2 := by
  have h2 : Nat.min (1 + 1) USIZE_MAX = PASSWORD_LINE_NUMBER := by decide
  refine ⟨?_, ?_, ?_, ?_⟩ <;>
    simp [fgets, State.inc_lines, hm, h2, herr, PASSWORD_LINE_NUMBER]

/-- Witness for C8: a concrete tracked stream on its second read with an
embedded nonce that fails hex decoding. -/
theorem fgets_recovery_failure_preserves_buffer_witness :
    wReg 3 = some 1 ∧
    (fgets ⟨"zz", "", []⟩ wFs [7, 8] 5 3 true wReg).buf = [7, 8] ∧
    (fgets ⟨"zz", "", []⟩ wFs [7, 8] 5 3 true wReg).logs =
      [Log.recoveryError (.hex (.invalidChar 'z' 0))] := by
  have h := fgets_recovery_failure_preserves_buffer ⟨"zz", "", []⟩ wFs [7, 8]
    5 3 wReg (.hex (.invalidChar 'z' 0)) rfl rfl
  exact ⟨rfl, h.1, h.2.2.1⟩

/-- Claim C9: secret recovery fails, and no substitution occurs, whenever the
correctly decrypted plaintext is not valid UTF-8 or contains an interior NUL
byte, even though decryption itself succeeded. -/
theorem password_line_rejects_invalid_plaintext (env : Env)
    (fs : String → Option String) (nonce ct pw : List Nat)
    (hn : hexDecode env.nonceHex = .ok nonce) (h12 : nonce.length = 12)
    (hc : hexDecode env.ciphertextHex = .ok ct)
    (hd : decrypt fs env.app_id nonce ct = .ok pw) :
    (validUtf8 pw = false → password_line env fs = .error .utf8) ∧
    (validUtf8 pw = true → pw.contains 0 = true →
      password_line env fs = .error .nul) := by
  constructor
  · intro hbad
    simp [password_line, hn, h12, hc, hd, hbad]
  · intro hok hnul
    have hmem : 0 ∈ pw := by simpa using hnul
    simp [password_line, hn, h12, hc, hd, hok, hmem]

/-- Witness for C9: a concrete ciphertext that decrypts to the invalid UTF-8
plaintext `[255]`. -/
theorem password_line_rejects_invalid_plaintext_witness :
    password_line wEnvBad wFs = .error PasswordError.utf8 :=
  (password_line_rejects_invalid_plaintext wEnvBad wFs wNonce wCtBad [255]
    rfl rfl rfl rfl).1 rfl

/-- Claim C4: decrypting the output of `encrypt` with its nonce under the
same key (same application identifier and same machine identity) returns
exactly the original plaintext; under a distinct key derived from a
different machine identity decryption fails with an error, and a successful
decryption can never return incorrect plaintext. -/
theorem encrypt_decrypt_roundtrip (fs fs2 : String → Option String)
    (app_id nonce pt ct : List Nat)
    (henc : encrypt fs app_id nonce pt = .ok (nonce, ct)) :
    decrypt fs app_id nonce ct = .ok pt ∧
    (∀ mid mid2, machine_id fs = .ok mid → machine_id fs2 = .ok mid2 →
      generate_key app_id (strBytes mid) ≠
        generate_key app_id (strBytes mid2) →
      decrypt fs2 app_id nonce ct = .error EncError.cipher) ∧
    (∀ pt2, decrypt fs2 app_id nonce ct = .ok pt2 → pt2 = pt) := by
  unfold encrypt at henc
  cases hmid : machine_id fs with
  | error e => rw [hmid] at henc; simp at henc
  | ok mid =>
    rw [hmid] at henc
    have hct : aead_encrypt (generate_key app_id (strBytes mid)) nonce pt
        = ct := (Prod.ext_iff.mp (Except.ok.inj henc)).2
    subst hct
    refine ⟨?_, ?_, ?_⟩
    · simp only [decrypt, hmid, aead_decrypt_encrypt]
    · intro mid1 mid2 hm1 hm2 hkne
      have hmideq : mid1 = mid := (Except.ok.inj hm1).symm
      subst hmideq
      have hwrong := aead_decrypt_wrong_key
        (generate_key app_id (strBytes mid1))
        (generate_key app_id (strBytes mid2)) nonce pt
        (by rw [generate_key_length, generate_key_length]) (Ne.symm hkne)
      simp only [decrypt, hm2, hwrong]
    · intro pt2 hdec
      obtain ⟨mid2, hmid2, hd⟩ := decrypt_ok_inv hdec
      have hinv := aead_decrypt_inv
        (by rw [generate_key_length, generate_key_length]) hd
      exact hinv.2

/-- Witness for C4: a concrete plaintext sealed on machine `A` decrypts
correctly there and fails on machine `B`. -/
theorem encrypt_decrypt_roundtrip_witness :
    decrypt wFs [] wNonce wCt123 = .ok [1, 2, 3] ∧
    decrypt wFs2 [] wNonce wCt123 = .error EncError.cipher := by
  have h := encrypt_decrypt_roundtrip wFs wFs2 [] wNonce [1, 2, 3] wCt123 rfl
  exact ⟨h.1, h.2.1 "A" "B" rfl rfl (by decide)⟩

/-- Claim C5 counterexample: two different recovery failures (an invalid hex
character in the embedded nonce, and a well-formed nonce of the wrong length)
surface as two distinct error values, so the recovery operation does
distinguish which failure occurred, contradicting the claim. -/
theorem recovery_errors_distinguishable :
    password_line ⟨"zz", "", []⟩ wFs = .error (.hex (.invalidChar 'z' 0)) ∧
    password_line ⟨"00", "", []⟩ wFs = .error .nonceLen ∧
    PasswordError.hex (.invalidChar 'z' 0) ≠ PasswordError.nonceLen :=
  ⟨rfl, rfl, by decide⟩

/-- Claim C5 (amended): only the authenticated-decryption failure is opaque —
whenever the machine identity is readable, any error coming out of `decrypt`
is the single indistinct `cipher` value, exposing no distinction between a
wrong key and a corrupted ciphertext; the other recovery failures (hex
decode, nonce length, missing identity file, invalid UTF-8, interior NUL)
surface as distinct error values. -/
theorem decrypt_failure_opaque (fs : String → Option String)
    (app_id nonce ct : List Nat) (mid : String) (e : EncError)
    (hmid : machine_id fs = .ok mid)
    (herr : decrypt fs app_id nonce ct = .error e) :
    e = EncError.cipher := by
  unfold decrypt at herr
  split at herr
  · rename_i e2 hmid2
    rw [hmid] at hmid2
    simp at hmid2
  · split at herr
    · simp at herr
    · exact (Except.error.inj herr).symm

/-- Witness for C5's amended theorem: a concrete decryption failure on
machine `B` of a ciphertext sealed on machine `A`. -/
theorem decrypt_failure_opaque_witness :
    machine_id wFs2 = .ok "B" ∧
    decrypt wFs2 [] wNonce wCt123 = .error EncError.cipher ∧
    EncError.cipher = EncError.cipher :=
  ⟨rfl, rfl,
    decrypt_failure_opaque wFs2 [] wNonce wCt123 "B" EncError.cipher rfl rfl⟩
